import Mathlib

/-!
Verification of the Golang teaching repository: a shallow embedding of its
demonstration programs (slice aliasing and capacity growth, functions and
closures, the retry helper, the struct demo, init functions) together with
proofs of the specified properties.
-/

/- ### Go `fmt.Println` semantics: operands are joined by single spaces,
   each call emits one console line. -/

/-- One console line produced by `fmt.Println(args...)`: the rendered
operands joined by single spaces (Go always inserts a space between
`Println` operands). -/
def goPrintln (args : List String) : String :=
  String.intercalate " " args

/-- Go's rendering of an `[]int` value: elements space-separated inside
brackets, e.g. `[1 2 3]`. -/
def goShowIntList (xs : List Int) : String :=
  "[" ++ String.intercalate " " (xs.map toString) ++ "]"

/- ### Slice memory model (src/slice/main.go)

A store of backing arrays plus slice headers (array id, offset, length,
capacity), mirroring Go's slice representation.  A backing array always has
length equal to the capacity of the slice that allocated it, with unwritten
cells holding the zero value, as in Go. -/

/-- A Go slice header: backing-array id, offset into it, length, capacity. -/
structure SliceVal where
  arr : Nat
  off : Nat
  len : Nat
  cap : Nat
deriving DecidableEq, Repr

/-- The heap of backing arrays, addressed by allocation order. -/
abbrev Store := List (List Int)

/-- Read backing array `i` from the store. -/
def storeRead (st : Store) (i : Nat) : List Int := st.getD i []

/-- Overwrite backing array `i` in the store. -/
def storeWrite (st : Store) (i : Nat) (a : List Int) : Store := st.set i a

/-- Allocate a fresh backing array, returning the new store and its id. -/
def alloc (st : Store) (a : List Int) : Store × Nat :=
  (st ++ [a], st.length)

/-- Modelled from the spec: the capacity growth rule applied by `append`
when a slice is full.  The rule itself lives in the Go runtime, not in this
repository; it is documented by the comment at src/slice/main.go lines
94-95 ("till 1024 (100% increase), after 1024 it will increase by 25%")
and by the comment at lines 13-14 recording that appending to a
nil slice (capacity 0) yields capacity 1. -/
def growCap (oldCap : Nat) : Nat :=
  if oldCap = 0 then 1
  else if oldCap ≤ 1024 then 2 * oldCap
  else oldCap + oldCap / 4

/-- The visible elements of a slice: `len` elements of its backing array
starting at `off`. -/
def getView (st : Store) (s : SliceVal) : List Int :=
  ((storeRead st s.arr).drop s.off).take s.len

/-- `append(s, v)` for a single element: write in place when spare capacity
exists; otherwise allocate a grown backing array, copy the elements, and
append there (zero-filling the spare cells, as the Go runtime does). -/
def appendOne (st : Store) (s : SliceVal) (v : Int) : Store × SliceVal :=
  if s.len < s.cap then
    let a := storeRead st s.arr
    (storeWrite st s.arr (a.set (s.off + s.len) v),
     { s with len := s.len + 1 })
  else
    let newCap := growCap s.cap
    let newArr := (getView st s ++ [v]) ++ List.replicate (newCap - (s.len + 1)) 0
    let st1 := alloc st newArr
    (st1.1, { arr := st1.2, off := 0, len := s.len + 1, cap := newCap })

/-- A slice literal `[]int{...}`: a fresh backing array with length equal
to capacity equal to the number of elements. -/
def sliceLit (st : Store) (xs : List Int) : Store × SliceVal :=
  let st1 := alloc st xs
  (st1.1, { arr := st1.2, off := 0, len := xs.length, cap := xs.length })

/-- The assignment `s[i] = v`, writing through the slice into its backing
array. -/
def setIdx (st : Store) (s : SliceVal) (i : Nat) (v : Int) : Store :=
  storeWrite st s.arr ((storeRead st s.arr).set (s.off + i) v)

/-- The re-slice `s[lo:hi]`: shares the backing array, offset moves by
`lo`, length is `hi - lo`, capacity shrinks by `lo`. -/
def reslice (s : SliceVal) (lo hi : Nat) : SliceVal :=
  { arr := s.arr, off := s.off + lo, len := hi - lo, cap := s.cap - lo }

/-- The tail re-slice `s[lo:]`, i.e. `s[lo:len(s)]`. -/
def resliceFrom (s : SliceVal) (lo : Nat) : SliceVal :=
  reslice s lo s.len

/-- `changeSlice` from src/slice/main.go lines 5-9:
`p[0] = 10; p = append(p, 11); return p`. -/
def changeSlice (st : Store) (p : SliceVal) : Store × SliceVal :=
  let st1 := setIdx st p 0 10
  appendOne st1 p 11

/-- The state of the slice demo `main` (src/slice/main.go lines 27-38)
just before its three `fmt.Println` calls: the store together with the
slices `x`, `a` and `y`. -/
def sliceMainState : Store × SliceVal × SliceVal × SliceVal :=
  let p1 := sliceLit [] [1, 2, 3, 4, 5]
  let p2 := appendOne p1.1 p1.2 6
  let p3 := appendOne p2.1 p2.2 7
  let x := p3.2
  let a := resliceFrom x 4
  let p4 := changeSlice p3.1 a
  (p4.1, x, a, p4.2)

/-- The three lists printed by the slice demo: `x`, `y`, and `x[0:8]`. -/
def sliceMainPrints : List Int × List Int × List Int :=
  let r := sliceMainState
  (getView r.1 r.2.1, getView r.1 r.2.2.2, getView r.1 (reslice r.2.1 0 8))

/- ### Bounds-checked semantics for the index and re-slice expressions,
   used to show no demo program aborts with an out-of-bounds error.
   The slice demo is the only program in the repository that executes an
   index or re-slice expression. -/

/-- Checked `s[i] = v`: defined only when `i < len(s)`, as in Go. -/
def setIdxChecked (st : Store) (s : SliceVal) (i : Nat) (v : Int) :
    Option Store :=
  if i < s.len then some (setIdx st s i v) else none

/-- Checked `s[lo:hi]`: defined only when `lo ≤ hi ≤ cap(s)`, as in Go. -/
def resliceChecked (s : SliceVal) (lo hi : Nat) : Option SliceVal :=
  if lo ≤ hi ∧ hi ≤ s.cap then some (reslice s lo hi) else none

/-- `changeSlice` with the write `p[0] = 10` bounds-checked. -/
def changeSliceChecked (st : Store) (p : SliceVal) :
    Option (Store × SliceVal) := do
  let st1 ← setIdxChecked st p 0 10
  pure (appendOne st1 p 11)

/-- The slice demo `main` with every index and re-slice expression
bounds-checked; `none` would mean a runtime abort. -/
def sliceMainChecked : Option (List Int × List Int × List Int) := do
  let p1 := sliceLit [] [1, 2, 3, 4, 5]
  let p2 := appendOne p1.1 p1.2 6
  let p3 := appendOne p2.1 p2.2 7
  let x := p3.2
  let a ← resliceChecked x 4 x.len
  let p4 ← changeSliceChecked p3.1 a
  let x08 ← resliceChecked x 0 8
  pure (getView p4.1 x, getView p4.1 p4.2, getView p4.1 x08)

/-- C1 (counterexample): the claim asserts the doubling rule for every
slice with `len = cap`; but appending to a nil slice (`len = cap = 0`,
and `0 ≤ 1024`) produces capacity 1, not the doubled capacity `2 * 0 = 0`
— exactly as the demo's own comment (src/slice/main.go lines 13-14)
records. -/
theorem append_growth_rule_cex :
    (⟨0, 0, 0, 0⟩ : SliceVal).len = (⟨0, 0, 0, 0⟩ : SliceVal).cap ∧
    (⟨0, 0, 0, 0⟩ : SliceVal).cap ≤ 1024 ∧
    (appendOne [] ⟨0, 0, 0, 0⟩ 1).2.cap ≠ 2 * (⟨0, 0, 0, 0⟩ : SliceVal).cap := by
  decide

/-- C1 (amended): when `append` grows a slice of positive capacity
(`len = cap > 0`), the new capacity is double the old one while the old
capacity is at most 1024, and is 25% larger once it exceeds 1024; a
zero-capacity slice instead grows to capacity 1.  Every growth event in
any sequence of appends is an `appendOne` call on some store and slice,
so this covers all append sequences. -/
theorem append_growth_rule (st : Store) (s : SliceVal) (v : Int)
    (hfull : s.len = s.cap) (hpos : 0 < s.cap) :
    (appendOne st s v).2.cap =
      if s.cap ≤ 1024 then s.cap + s.cap else s.cap + s.cap / 4 := by
  have h1 : ¬ s.len < s.cap := by omega
  have h2 : ¬ s.cap = 0 := by omega
  by_cases hc : s.cap ≤ 1024 <;>
    simp [appendOne, h1, growCap, h2, hc, two_mul]

/-- Witness for `append_growth_rule`: the demo's own slice of length 5 =
capacity 5 grows to capacity 10 on append. -/
theorem append_growth_rule_witness :
    (⟨0, 0, 5, 5⟩ : SliceVal).len = (⟨0, 0, 5, 5⟩ : SliceVal).cap ∧
    0 < (⟨0, 0, 5, 5⟩ : SliceVal).cap ∧
    (appendOne [[1, 2, 3, 4, 5]] ⟨0, 0, 5, 5⟩ 6).2.cap =
      if (⟨0, 0, 5, 5⟩ : SliceVal).cap ≤ 1024
      then (⟨0, 0, 5, 5⟩ : SliceVal).cap + (⟨0, 0, 5, 5⟩ : SliceVal).cap
      else (⟨0, 0, 5, 5⟩ : SliceVal).cap + (⟨0, 0, 5, 5⟩ : SliceVal).cap / 4 :=
  ⟨rfl, by decide,
   append_growth_rule [[1, 2, 3, 4, 5]] ⟨0, 0, 5, 5⟩ 6 rfl (by decide)⟩

/-- C2: in the slice demo, after `x := []int{1,2,3,4,5}`, two appends, and
`a := x[4:]`, the call `y := changeSlice(a)` writes 10 through the shared
backing array, so printing `x` yields `[1 2 3 4 10 6 7]`, `y` is
`[10 6 7 11]`, and `x[0:8]` yields `[1 2 3 4 10 6 7 11]`; the append of 11
lands in `x`'s backing array (`a`, `y` and `x` share one array id) because
`len(a) < cap(a)`. -/
theorem slice_demo_aliasing :
    sliceMainPrints =
      ([1, 2, 3, 4, 10, 6, 7], [10, 6, 7, 11], [1, 2, 3, 4, 10, 6, 7, 11]) ∧
    sliceMainState.2.2.1.len < sliceMainState.2.2.1.cap ∧
    sliceMainState.2.2.1.arr = sliceMainState.2.1.arr ∧
    sliceMainState.2.2.2.arr = sliceMainState.2.1.arr := by
  decide

/-- C6: every index and re-slice expression executed by the demo programs
is within bounds (the slice demo is the only program executing any): the
bounds-checked run of the slice demo completes normally with the same
printed values as the unchecked run, the access `p[0]` in `changeSlice` is
backed by `len(a) = 3 > 0`, and the re-slice `x[0:8]` by
`cap(x) = 10 ≥ 8`. -/
theorem slice_demo_safe :
    sliceMainChecked = some sliceMainPrints ∧
    sliceMainState.2.2.1.len = 3 ∧
    0 < sliceMainState.2.2.1.len ∧
    sliceMainState.2.1.cap = 10 ∧
    8 ≤ sliceMainState.2.1.cap := by
  decide

/- ### The Retry helper (src/unnamed/part_005, lines 1402-1421)

```
func Retry(fn RetryableFunc, maxAttempts int, delay time.Duration,
           onRetry func(int, error)) error {
    var err error
    for attempt := 1; attempt <= maxAttempts; attempt++ {
        err = fn()
        if err == nil { return nil }
        ...
    }
    return fmt.Errorf("failed after %d attempts: %w", maxAttempts, err)
}
```

The operation `fn` is modelled as a function from the attempt number to
its outcome (`none` = the Go `nil` error, `some msg` = a failure).  The
result of `Retry` is the number of calls made to `fn` paired with `none`
for a `nil` return or `some (maxAttempts, lastErr)` for the wrapping
`fmt.Errorf`; the `delay` and `onRetry` arguments do not affect the
return value and are omitted. -/

/-- The loop of `Retry`, by recursion on the remaining attempts.  `err`
is the current value of the Go `err` variable, `attempt` the loop
counter.  Returns the number of calls made at this level and the final
result. -/
def retryAux (fn : Nat → Option String) (maxAttempts : Nat)
    (err : Option String) (attempt : Nat) :
    Nat → Nat × Option (Nat × Option String)
  | 0 => (0, some (maxAttempts, err))
  | remaining + 1 =>
    match fn attempt with
    | none => (1, none)
    | some e =>
      let r := retryAux fn maxAttempts (some e) (attempt + 1) remaining
      (r.1 + 1, r.2)

/-- `Retry fn maxAttempts`: calls of the loop body start at `attempt = 1`
with the zero-valued `err`. -/
def Retry (fn : Nat → Option String) (maxAttempts : Nat) :
    Nat × Option (Nat × Option String) :=
  retryAux fn maxAttempts none 1 maxAttempts

/-- `retryAux` makes at most `remaining` calls to `fn`. -/
theorem retryAux_calls_le (fn : Nat → Option String) (m : Nat)
    (err : Option String) (attempt : Nat) :
    ∀ remaining, (retryAux fn m err attempt remaining).1 ≤ remaining := by
  intro remaining
  induction remaining generalizing err attempt with
  | zero => simp [retryAux]
  | succ n ih =>
    unfold retryAux
    cases h : fn attempt with
    | none => simp
    | some e => simpa using ih (some e) (attempt + 1)

/-- If some attempt in `attempt .. attempt + remaining - 1` returns `nil`,
the loop returns `nil`. -/
theorem retryAux_success (fn : Nat → Option String) (m : Nat) :
    ∀ remaining (err : Option String) (attempt k : Nat),
      attempt ≤ k → k < attempt + remaining → fn k = none →
      (retryAux fn m err attempt remaining).2 = none := by
  intro remaining
  induction remaining with
  | zero => intro err attempt k h1 h2 _; omega
  | succ n ih =>
    intro err attempt k h1 h2 hk
    unfold retryAux
    cases h : fn attempt with
    | none => simp
    | some e =>
      have hne : attempt ≠ k := by
        intro heq; rw [heq, hk] at h; exact Option.noConfusion h
      simpa using ih (some e) (attempt + 1) k (by omega) (by omega) hk

/-- If every attempt in `attempt .. attempt + remaining - 1` fails, the
loop returns the wrapping error holding `maxAttempts` and the `err`
variable's final value: the last failure when `remaining > 0`, the
incoming `err` otherwise. -/
theorem retryAux_allfail (fn : Nat → Option String) (m : Nat) :
    ∀ remaining (err : Option String) (attempt : Nat),
      (∀ k, attempt ≤ k → k < attempt + remaining → fn k ≠ none) →
      (retryAux fn m err attempt remaining).2 =
        some (m, if remaining = 0 then err else fn (attempt + remaining - 1)) := by
  intro remaining
  induction remaining with
  | zero => intro err attempt _; simp [retryAux]
  | succ n ih =>
    intro err attempt hall
    unfold retryAux
    cases h : fn attempt with
    | none =>
      exact absurd h (hall attempt (Nat.le_refl _) (by omega))
    | some e =>
      have := ih (some e) (attempt + 1) (fun k h1 h2 => hall k (by omega) (by omega))
      cases n with
      | zero => simpa [h] using this
      | succ n2 =>
        simp only [this]
        have harith : attempt + 1 + (n2 + 1) - 1 = attempt + (n2 + 1 + 1) - 1 := by omega
        simp [harith]

/-- Like `retryAux_success`, but pinned to the first successful attempt:
the loop stops right there, having made exactly `k - attempt + 1` calls. -/
theorem retryAux_first_success (fn : Nat → Option String) (m : Nat) :
    ∀ remaining (err : Option String) (attempt k : Nat),
      attempt ≤ k → k < attempt + remaining → fn k = none →
      (∀ j, attempt ≤ j → j < k → fn j ≠ none) →
      retryAux fn m err attempt remaining = (k - attempt + 1, none) := by
  intro remaining
  induction remaining with
  | zero => intro err attempt k h1 h2 _ _; omega
  | succ n ih =>
    intro err attempt k h1 h2 hk hfirst
    unfold retryAux
    cases h : fn attempt with
    | none =>
      have hak : attempt = k := by
        by_contra hne
        exact hfirst attempt (Nat.le_refl _) (by omega) h
      simp [hak]
    | some e =>
      have hne : attempt ≠ k := by
        intro heq; rw [heq, hk] at h; exact Option.noConfusion h
      have hrec := ih (some e) (attempt + 1) k (by omega) (by omega) hk
        (fun j hj1 hj2 => hfirst j (by omega) hj2)
      simp only [hrec]
      have : k - (attempt + 1) + 1 + 1 = k - attempt + 1 := by omega
      simp [this]

/-- C3: `Retry` calls `fn` at most `maxAttempts` times; it returns `nil`
as soon as some attempt returns `nil` (stopping at the first success,
after exactly that many calls); and when every attempt in the budget
fails it returns a non-nil error wrapping the attempt budget and the last
failure. -/
theorem Retry_spec (fn : Nat → Option String) (m : Nat) :
    (Retry fn m).1 ≤ m ∧
    ((∃ k, 1 ≤ k ∧ k ≤ m ∧ fn k = none) → (Retry fn m).2 = none) ∧
    (∀ k, 1 ≤ k → k ≤ m → fn k = none →
      (∀ j, 1 ≤ j → j < k → fn j ≠ none) → Retry fn m = (k, none)) ∧
    ((∀ k, 1 ≤ k → k ≤ m → fn k ≠ none) →
      ∃ lastErr, (Retry fn m).2 = some (m, lastErr) ∧
        (1 ≤ m → lastErr = fn m)) := by
  refine ⟨retryAux_calls_le fn m none 1 m, ?_, ?_, ?_⟩
  · rintro ⟨k, h1, h2, hk⟩
    exact retryAux_success fn m m none 1 k h1 (by omega) hk
  · intro k h1 h2 hk hfirst
    have hres := retryAux_first_success fn m m none 1 k h1 (by omega) hk
      (fun j hj1 hj2 => hfirst j hj1 hj2)
    have hk1 : k - 1 + 1 = k := by omega
    rw [Retry, hres, hk1]
  · intro hall
    have hres := retryAux_allfail fn m m none 1
      (fun k hk1 hk2 => hall k hk1 (by omega))
    refine ⟨if m = 0 then none else fn (1 + m - 1), hres, ?_⟩
    intro hm
    have hm0 : ¬ m = 0 := by omega
    have : 1 + m - 1 = m := by omega
    simp [hm0, this]

/-- Witness for `Retry_spec`: with an operation failing on every attempt
but the second, `Retry _ 5` returns `nil` after exactly 2 calls; with an
operation that always fails, `Retry _ 3` returns the wrapping error
carrying the last failure. -/
theorem Retry_spec_witness :
    Retry (fun k => if k = 2 then none else some "operation failed") 5 =
      (2, none) ∧
    ∃ lastErr,
      (Retry (fun _ => some "operation failed") 3).2 = some (3, lastErr) ∧
      (1 ≤ 3 → lastErr = (fun _ : Nat => some "operation failed") 3) :=
  ⟨(Retry_spec (fun k => if k = 2 then none else some "operation failed") 5).2.2.1
      2 (by decide) (by decide) (by simp)
      (fun j hj1 hj2 => by
        have : j = 1 := by omega
        simp [this]),
   (Retry_spec (fun _ => some "operation failed") 3).2.2.2
      (fun k _ _ h => by simp at h)⟩

/- ### The first-project program (src/first-project/main.go)

Printing functions are embedded as the list of console lines they emit;
`fmt.Println(v)` renders `v` and `fmt.Println(a, b)` joins the operands
with a space (`goPrintln`). -/

namespace FirstProject

/-- `add` (lines 6-9): prints the sum of its arguments. -/
def add (num1 num2 : Int) : List String :=
  [goPrintln [toString (num1 + num2)]]

/-- `findProduct` (lines 12-15): returns the product. -/
def findProduct (num1 num2 : Int) : Int :=
  num1 * num2

/-- `getNumbers` (lines 17-21): returns the sum and the product. -/
def getNumbers (num1 num2 : Int) : Int × Int :=
  (num1 + num2, num1 * num2)

/-- `printSomething` (lines 23-25). -/
def printSomething : List String :=
  [goPrintln ["Education must be free"]]

/-- `sayHello` (lines 27-29): note the trailing space inside the string
literal and the operand-separating space `Println` itself inserts. -/
def sayHello (name : String) : List String :=
  [goPrintln ["Welcome to the Golang course, ", name]]

/-- The console lines printed by `main` (lines 31-45), in order. -/
def mainOutput : List String :=
  let a : Int := 10
  let b : Int := 20
  add a b
    ++ [goPrintln [toString (findProduct a b)]]
    ++ (let pq := getNumbers a b
        [goPrintln [toString pq.1], goPrintln [toString pq.2]])
    ++ printSomething
    ++ sayHello "Arman"

end FirstProject

/-- C4 (counterexample): the program does not print the line
`"Welcome to the Golang course, Arman"` the claim quotes: `Println`
inserts a space between its two operands on top of the trailing space in
the string literal, so the last line carries two spaces before `Arman`,
and the claimed output list is not the one produced. -/
theorem first_project_output_cex :
    FirstProject.mainOutput ≠
      ["30", "200", "30", "200", "Education must be free",
       "Welcome to the Golang course, Arman"] := by
  decide

/-- C4 (amended): run with no input, the first-project `main` prints
exactly the sum 30, the product 200, the pair 30 and 200, the line
`"Education must be free"`, and the line
`"Welcome to the Golang course,  Arman"` (with two spaces before the
name), in that order and nothing else. -/
theorem first_project_output :
    FirstProject.mainOutput =
      ["30", "200", "30", "200", "Education must be free",
       "Welcome to the Golang course,  Arman"] := by
  decide

/- ### The remaining demo programs, embedded as the console lines each
   one prints. -/

namespace FirstProjectB

/- The higher-order-function program stored alongside
src/first-project/main.go: `processOperation(2, 5, add)`. -/

/-- `add`: prints the sum. -/
def add (x y : Int) : List String :=
  [goPrintln [toString (x + y)]]

/-- `processOperation`: applies the operation callback to `a` and `b`. -/
def processOperation (a b : Int) (op : Int → Int → List String) :
    List String :=
  op a b

/-- `main`: `processOperation(2, 5, add)`. -/
def mainOutput : List String :=
  processOperation 2 5 add

end FirstProjectB

namespace Part000

/-- The console lines of src/unnamed/part_000: variable, float, string,
boolean and const prints, then the condition and switch demos.  The
`float32` values `23.34` and the constant `3.1416` are modelled by their
printed text. -/
def mainOutput : List String :=
  let x : Int := 100
  let y : Int := 200
  let z : Int := 300
  let message := "I love you"
  let isOk := true
  let isOkLater := false
  let age : Int := 20
  let sex := "male"
  let isPretty := false
  let day := "monday"
  [goPrintln [toString x], goPrintln [toString y], goPrintln [toString z],
   goPrintln ["23.34"],
   goPrintln [message],
   goPrintln [toString isOk], goPrintln [toString isOkLater],
   goPrintln ["3.1416"]]
  ++ (if age > 60 || sex == "male"
      then [goPrintln ["You are ready to marry"]] else [])
  ++ (if !isPretty then [goPrintln ["You are pretty"]] else [])
  ++ (match day with
      | "friday" => [goPrintln ["Holiday"]]
      | "saturday" => [goPrintln ["Holiday"]]
      | "monday" => [goPrintln ["half office day"]]
      | _ => ["Office day"])

end Part000

namespace Part001

/-- `add` from src/unnamed/part_001: prints the sum. -/
def add (a b : Int) : List String :=
  [goPrintln [toString (a + b)]]

/-- `main`: `add(2, 5)`. -/
def mainOutput : List String :=
  add 2 5

end Part001

namespace Part002

/-- `add` from src/unnamed/part_002: prints the sum. -/
def add (x y : Int) : List String :=
  [goPrintln [toString (x + y)]]

/-- `processOperation`: calls the callback on `a` and `b` and returns
`add`. -/
def processOperation (a b : Int) (op : Int → Int → List String) :
    List String × (Int → Int → List String) :=
  (op a b, add)

/-- `call`: returns `add`. -/
def call : Int → Int → List String :=
  add

/-- `main`: `sum := call(); sum(10, 20); sum2 := processOperation(1, 3,
add); sum2(4, 8)`. -/
def mainOutput : List String :=
  let sum := call
  sum 10 20
    ++ (let r := processOperation 1 3 add
        r.1 ++ r.2 4 8)

end Part002

namespace Part003

/-- `init` from src/unnamed/part_003. -/
def initOutput : List String :=
  [goPrintln ["i am init function"]]

/-- `main`: the named anonymous function `add(3, 8)`. -/
def mainOutput : List String :=
  let add := fun (a b : Int) =>
    [goPrintln ["I am a anonymous function"], goPrintln [toString (a + b)]]
  add 3 8

/-- Go runs `init` before `main`. -/
def output : List String :=
  initOutput ++ mainOutput

end Part003

namespace Part004

/-- `init` from src/unnamed/part_004. -/
def initOutput : List String :=
  [goPrintln ["I am the first function that is executed first"]]

/-- `main`. -/
def mainOutput : List String :=
  [goPrintln ["Hello init function"]]

/-- Go runs `init` before `main`. -/
def output : List String :=
  initOutput ++ mainOutput

end Part004

namespace Part005

/-- The IIFE program at the head of src/unnamed/part_005: an anonymous
function invoked immediately with `(5, 9)`. -/
def mainOutput : List String :=
  (fun (a b : Int) =>
    [goPrintln ["I am a anonymous function"], goPrintln [toString (a + b)]])
    5 9

end Part005

/-- Multi-element `append(s, vs...)`: in place when the spare capacity
suffices, otherwise one growth step; when the needed length exceeds twice
the old capacity the new capacity is the needed length itself (the Go
runtime's rule, as with `growCap` modelled from the spec). -/
def growCapFor (oldCap needed : Nat) : Nat :=
  if needed > 2 * oldCap then needed else growCap oldCap

/-- `append(s, v1, ..., vk)` with a single growth decision, as in Go. -/
def appendMany (st : Store) (s : SliceVal) (vs : List Int) :
    Store × SliceVal :=
  let needed := s.len + vs.length
  if needed ≤ s.cap then
    let a := storeRead st s.arr
    (storeWrite st s.arr
      ((getView st s ++ vs) ++ (a.drop needed)),
     { s with len := needed })
  else
    let newCap := growCapFor s.cap needed
    let newArr := (getView st s ++ vs) ++ List.replicate (newCap - needed) 0
    let st1 := alloc st newArr
    (st1.1, { arr := st1.2, off := 0, len := needed, cap := newCap })

namespace Part007

/-- src/unnamed/part_007: `var s []int; s = append(s, 1, 2, 3)`.  The nil
slice has no backing array (any id reads as empty in the empty store). -/
def mainState : Store × SliceVal :=
  appendMany [] ⟨0, 0, 0, 0⟩ [1, 2, 3]

/-- `main`: prints the resulting slice. -/
def mainOutput : List String :=
  [goPrintln [goShowIntList (getView mainState.1 mainState.2)]]

end Part007

namespace PointerDemo

/-- The `User` struct of src/pointer/main.go; the `float32` field
`Salary` is modelled by its printed text. -/
structure User where
  Name : String
  Age : Int
  Salary : String
deriving DecidableEq, Repr

/-- `printObj(user *User)`: `fmt.Println` of a struct pointer renders as
`&{field1 field2 field3}`. -/
def printObj (user : User) : List String :=
  [goPrintln ["&" ++ "\x7b" ++
    String.intercalate " " [user.Name, toString user.Age, user.Salary] ++
    "\x7d"]]

/-- `main`: builds `obj` and prints it through a pointer. -/
def mainOutput : List String :=
  let obj : User := { Name := "Arman", Age := 30, Salary := "300.34" }
  printObj obj

end PointerDemo

namespace PointerDemoB

/- The init/const program stored alongside src/pointer/main.go
(its lines 53-79 as concatenated): `const a = 10`, `var p = 100`,
`call()` with a local function expression, `init`, and `main`. -/

/-- `const a = 10`. -/
def a : Int := 10

/-- `var p = 100`. -/
def p : Int := 100

/-- `call`: a local `add` function expression, called on `(5, 6)` and
`(p, a)`. -/
def call : List String :=
  let add := fun (x y : Int) => [goPrintln [toString (x + y)]]
  add 5 6 ++ add p a

/-- `init`. -/
def initOutput : List String :=
  [goPrintln ["I am init function"]]

/-- `main`: `call()` then `fmt.Println(a)`. -/
def mainOutput : List String :=
  call ++ [goPrintln [toString a]]

/-- Go runs `init` before `main`. -/
def output : List String :=
  initOutput ++ mainOutput

end PointerDemoB

/- ### The struct demo (src/unnamed/part_006)

Value-receiver methods are embedded as functions that also return the
receiver state after the call, and `main` threads that state back into
the variable; a field write in a method body would therefore be visible.
(With Go's value receivers the caller's variable is additionally copied,
so it is unchanged a fortiori.) -/

namespace StructDemo

/-- The `User` struct (lines 5-8). -/
structure User where
  Name : String
  Age : Int
deriving DecidableEq, Repr

/-- `printDetails` (lines 11-14): prints both fields; the receiver after
the call is returned first. -/
def printDetails (usr : User) : User × List String :=
  (usr, [goPrintln ["Name=", usr.Name], goPrintln ["Age=", toString usr.Age]])

/-- `call` (lines 16-19): prints the name and the argument. -/
def call (usr : User) (a : Int) : User × List String :=
  (usr, [goPrintln [usr.Name], goPrintln [toString a]])

/-- `main` (lines 21-44) on arbitrary instances in place of `user1` and
`user2`: `user1.printDetails(); user2.printDetails(); user1.call(19)`,
threading each receiver state back and collecting the console lines. -/
def mainRun (u1 u2 : User) : (User × User) × List String :=
  let r1 := printDetails u1
  let u1a := r1.1
  let r2 := printDetails u2
  let u2a := r2.1
  let r3 := call u1a 19
  let u1b := r3.1
  ((u1b, u2a), r1.2 ++ r2.2 ++ r3.2)

/-- `user1` (lines 24-27). -/
def user1 : User := { Name := "Arman", Age := 30 }

/-- `user2` (lines 34-37). -/
def user2 : User := { Name := "Nusrat", Age := 28 }

/-- The console lines of the struct demo. -/
def mainOutput : List String :=
  (mainRun user1 user2).2

end StructDemo

/-- C10: in the struct demo the two `User` instances are independent and
every operation preserves them: for arbitrary instances, running the
demo's method calls leaves both variables exactly as they started (so no
call on one instance modifies the other), each single method call
returns its receiver unchanged, and on the demo's own `user1`/`user2` the
printed lines are the expected ones. -/
theorem struct_demo_frame (u1 u2 : StructDemo.User) :
    (StructDemo.mainRun u1 u2).1 = (u1, u2) ∧
    (∀ a : Int,
      (StructDemo.printDetails u1).1 = u1 ∧ (StructDemo.call u1 a).1 = u1) ∧
    StructDemo.mainOutput =
      ["Name= Arman", "Age= 30", "Name= Nusrat", "Age= 28", "Arman", "19"] :=
  ⟨rfl, fun _ => ⟨rfl, rfl⟩, by decide⟩

/- ### The repository's programs as console processes

A `Program` maps the standard-input token stream to the console lines it
prints and the tokens it leaves unread.  Every program under src/ reads
nothing, so its `run` leaves the input untouched; the one input-reading
file of the repository is not present under src/ and is modelled from
the spec. -/

/-- A demo program: from stdin tokens to (console lines, unread tokens). -/
structure Program where
  name : String
  run : List String → List String × List String

/-- A program that prints fixed lines and reads nothing, the shape of
every program under src/. -/
def progOf (name : String) (out : List String) : Program :=
  { name := name, run := fun input => (out, input) }

/-- Modelled from the spec: the one source file of the repository (not
present under src/) that reads whitespace-delimited tokens from standard
input into local variables; the spec records no input-dependent output,
so it consumes its tokens (two, here) and prints nothing. -/
def scanProgram : Program :=
  { name := "stdin-demo", run := fun input => ([], input.drop 2) }

/-- The console lines of the slice demo (src/slice/main.go). -/
def sliceMainOutput : List String :=
  [goPrintln [goShowIntList sliceMainPrints.1],
   goPrintln [goShowIntList sliceMainPrints.2.1],
   goPrintln [goShowIntList sliceMainPrints.2.2]]

/-- Every program of the repository. -/
def repoPrograms : List Program :=
  [progOf "first-project/main.go" FirstProject.mainOutput,
   progOf "first-project (higher-order)" FirstProjectB.mainOutput,
   progOf "slice/main.go" sliceMainOutput,
   progOf "pointer/main.go" PointerDemo.mainOutput,
   progOf "pointer (init)" PointerDemoB.output,
   progOf "part_000" Part000.mainOutput,
   progOf "part_001" Part001.mainOutput,
   progOf "part_002" Part002.mainOutput,
   progOf "part_003" Part003.output,
   progOf "part_004" Part004.output,
   progOf "part_005" Part005.mainOutput,
   progOf "part_006" StructDemo.mainOutput,
   progOf "part_007" Part007.mainOutput,
   scanProgram]

/-- A program consumes standard input when on some token stream it leaves
the input changed. -/
def consumesInput (p : Program) : Prop :=
  ∃ i, (p.run i).2 ≠ i

/-- C5: exactly one source file of the repository reads tokens from
standard input — the modelled stdin demo consumes input, and any
repository program that consumes input is that one; every program under
src/ leaves the input stream untouched. -/
theorem stdin_exactly_one :
    consumesInput scanProgram ∧
    ∀ p ∈ repoPrograms, consumesInput p → p = scanProgram := by
  constructor
  · exact ⟨["a"], by decide⟩
  · intro p hp hc
    fin_cases hp <;>
      first
        | rfl
        | simp [consumesInput, progOf] at hc

/-- Witness for `stdin_exactly_one`: the stdin demo consumes input and is
(trivially) identified as the unique reader. -/
theorem stdin_exactly_one_witness :
    consumesInput scanProgram ∧ scanProgram = scanProgram :=
  ⟨stdin_exactly_one.1,
   stdin_exactly_one.2 scanProgram (by simp [repoPrograms])
     stdin_exactly_one.1⟩

/-- C7: for every program of the repository the console output is a
deterministic function of no input: any two executions, whatever the
input streams, print the same lines. -/
theorem output_deterministic (p : Program) (hp : p ∈ repoPrograms)
    (i1 i2 : List String) : (p.run i1).1 = (p.run i2).1 := by
  fin_cases hp <;> rfl

/-- Witness for `output_deterministic`: the first-project program prints
the same lines on input `["x"]` as on empty input. -/
theorem output_deterministic_witness :
    ((progOf "first-project/main.go" FirstProject.mainOutput).run ["x"]).1 =
    ((progOf "first-project/main.go" FirstProject.mainOutput).run []).1 :=
  output_deterministic _ (by simp [repoPrograms]) ["x"] []

/-- C9: in each of the three programs that define an `init` function
(part_003, part_004, and the init program stored with pointer/main.go),
the console output is exactly init's lines followed by main's lines, init
prints at least one line, and the concrete outputs are as transcribed —
so no program emits any of main's output before init's. -/
theorem init_runs_before_main :
    Part003.output = Part003.initOutput ++ Part003.mainOutput ∧
    Part003.initOutput ≠ [] ∧
    Part003.output =
      ["i am init function", "I am a anonymous function", "11"] ∧
    Part004.output = Part004.initOutput ++ Part004.mainOutput ∧
    Part004.initOutput ≠ [] ∧
    Part004.output =
      ["I am the first function that is executed first",
       "Hello init function"] ∧
    PointerDemoB.output = PointerDemoB.initOutput ++ PointerDemoB.mainOutput ∧
    PointerDemoB.initOutput ≠ [] ∧
    PointerDemoB.output = ["I am init function", "11", "110", "10"] := by
  decide

/- ### Closures (src/unnamed/part_005, lines 176-184 and 556-576)

The `increment` closure and the closure returned by `createCounter` share
one body — `count++; return count` — embedded as a transition on the
captured variable.  A closure value is its captured state; calls thread
the state explicitly. -/

namespace Closures

/-- One call of the counter closure body: `count++; return count`,
giving the new captured state and the returned value. -/
def counterStep (count : Int) : Int × Int :=
  (count + 1, count + 1)

/-- `createCounter(start)` (lines 558-564): `count := start` is the
initial captured state of the returned closure. -/
def createCounter (start : Int) : Int :=
  start

/-- `n` successive calls of one closure from captured state `c`: the
returned values in order, and the final state. -/
def callTimes : Nat → Int → List Int × Int
  | 0, c => ([], c)
  | n + 1, c =>
    let r := counterStep c
    let rest := callTimes n r.1
    (r.2 :: rest.1, rest.2)

/-- Interleaved calls to two closures with captured states `c1`, `c2`:
`true` calls the first, `false` the second; each call's returned value is
recorded with its tag. -/
def runInterleaved (c1 c2 : Int) : List Bool → List (Bool × Int)
  | [] => []
  | b :: rest =>
    if b then
      let r := counterStep c1
      (true, r.2) :: runInterleaved r.1 c2 rest
    else
      let r := counterStep c2
      (false, r.2) :: runInterleaved c1 r.1 rest

/-- The values returned by the calls carrying a given tag, in order. -/
def callsTo (tag : Bool) : List (Bool × Int) → List Int
  | [] => []
  | p :: rest =>
    if p.1 = tag then p.2 :: callsTo tag rest else callsTo tag rest

/-- The list `c+1, c+2, ..., c+n`. -/
def countUpFrom (c : Int) : Nat → List Int
  | 0 => []
  | n + 1 => (c + 1) :: countUpFrom (c + 1) n

/-- In any interleaving, the calls to either closure see only their own
captured state: the tagged closure returns the consecutive values above
its own start, however the other closure's calls are interspersed. -/
theorem callsTo_runInterleaved (seq : List Bool) :
    ∀ c1 c2 : Int,
      callsTo true (runInterleaved c1 c2 seq) =
        countUpFrom c1 (seq.count true) ∧
      callsTo false (runInterleaved c1 c2 seq) =
        countUpFrom c2 (seq.count false) := by
  induction seq with
  | nil => intro c1 c2; exact ⟨rfl, rfl⟩
  | cons b rest ih =>
    intro c1 c2
    cases b with
    | true =>
      have h := ih (c1 + 1) c2
      constructor
      · simp [runInterleaved, counterStep, callsTo, List.count_cons,
              countUpFrom, h.1]
      · simpa [runInterleaved, counterStep, callsTo, List.count_cons]
          using h.2
    | false =>
      have h := ih c1 (c2 + 1)
      constructor
      · simpa [runInterleaved, counterStep, callsTo, List.count_cons]
          using h.1
      · simp [runInterleaved, counterStep, callsTo, List.count_cons,
              countUpFrom, h.2]

end Closures

/-- C8: the `increment` closure capturing `counter = 0` returns 1, 2, 3
on three successive calls; and the two closures from `createCounter(0)`
and `createCounter(100)` keep independent state: in every interleaving of
three calls to the first with two calls to the second, the first returns
1, 2, 3 and the second 101, 102. -/
theorem closure_counters (seq : List Bool)
    (h3 : seq.count true = 3) (h2 : seq.count false = 2) :
    (Closures.callTimes 3 0).1 = [1, 2, 3] ∧
    Closures.callsTo true
      (Closures.runInterleaved (Closures.createCounter 0)
        (Closures.createCounter 100) seq) = [1, 2, 3] ∧
    Closures.callsTo false
      (Closures.runInterleaved (Closures.createCounter 0)
        (Closures.createCounter 100) seq) = [101, 102] := by
  refine ⟨by decide, ?_, ?_⟩
  · rw [(Closures.callsTo_runInterleaved seq
      (Closures.createCounter 0) (Closures.createCounter 100)).1, h3]
    decide
  · rw [(Closures.callsTo_runInterleaved seq
      (Closures.createCounter 0) (Closures.createCounter 100)).2, h2]
    decide

/-- Witness for `closure_counters`: the interleaving first, second,
first, first, second. -/
theorem closure_counters_witness :
    (Closures.callTimes 3 0).1 = [1, 2, 3] ∧
    Closures.callsTo true
      (Closures.runInterleaved (Closures.createCounter 0)
        (Closures.createCounter 100) [true, false, true, true, false]) =
      [1, 2, 3] ∧
    Closures.callsTo false
      (Closures.runInterleaved (Closures.createCounter 0)
        (Closures.createCounter 100) [true, false, true, true, false]) =
      [101, 102] :=
  closure_counters [true, false, true, true, false] (by decide) (by decide)
